import Mathlib

/-!
# Verification of the quotabar usage-normalization and pace-forecasting core

Shallow embedding of the core of the `quotabar` repository:
the snapshot data model (`src/models.rs`), the pace forecasting engine
(`src/pace.rs`), the cache store (`src/cache.rs`) and the class computation of
the presentation aggregator (`src/main.rs`).

Modelling choices:
* Rust `f64` quantities are modelled as `ℚ` (exact rational arithmetic).
* `chrono::DateTime<Utc>` instants are modelled as `Int` milliseconds since the
  epoch; `(resets_at - now).num_milliseconds() as f64 / 1000.0` becomes exact
  division of the millisecond difference by `1000` in `ℚ`.
* `serde_json` serialization is modelled at the JSON-document level by an
  explicit `Json` tree together with encoders and decoders that follow the
  derived serde implementations field by field.
-/

/-- Rust `f64::clamp(lo, hi)` (for `lo ≤ hi`): `min (max x lo) hi`. -/
def clampQ (x lo hi : ℚ) : ℚ := min (max x lo) hi

/-- `Provider` from `src/models.rs` lines 5-11: closed enumeration of vendors,
serde-renamed to lowercase tokens. -/
inductive Provider where
  | Claude
  | Codex
  | OpenCode
deriving DecidableEq, Repr

/-- `RateWindow` from `src/models.rs` lines 32-42: one quota window. -/
structure RateWindow where
  used_percent : ℚ
  window_minutes : Option Int
  resets_at : Option Int
  reset_description : Option String
deriving DecidableEq, Repr

/-- `RateWindow::remaining_percent` from `src/models.rs` lines 45-47:
`100.0 - self.used_percent`, with no clamping. -/
def RateWindow.remaining_percent (w : RateWindow) : ℚ :=
  100 - w.used_percent

/-- `RateWindow::status_class` from `src/models.rs` lines 49-57. -/
def RateWindow.status_class (w : RateWindow) : String :=
  if 90 ≤ w.used_percent then "critical"
  else if 75 ≤ w.used_percent then "warning"
  else "normal"

/-- `DEFAULT_WINDOW_MINUTES` from `src/pace.rs` line 4 (7 days). -/
def DEFAULT_WINDOW_MINUTES : Int := 10080

/-- `MINIMUM_EXPECTED_PERCENT` from `src/pace.rs` line 5. -/
def MINIMUM_EXPECTED_PERCENT : ℚ := 3

/-- `PaceStage` from `src/pace.rs` lines 8-16. -/
inductive PaceStage where
  | OnTrack
  | SlightlyAhead
  | Ahead
  | FarAhead
  | SlightlyBehind
  | Behind
  | FarBehind
deriving DecidableEq, Repr

/-- `UsagePace` from `src/pace.rs` lines 18-26. -/
structure UsagePace where
  stage : PaceStage
  delta_percent : ℚ
  expected_used_percent : ℚ
  actual_used_percent : ℚ
  eta_seconds : Option ℚ
  will_last_to_reset : Bool
deriving DecidableEq, Repr

/-- `minutes` in `UsagePace::weekly` (`src/pace.rs` line 31):
`window.window_minutes.unwrap_or(DEFAULT_WINDOW_MINUTES)`. -/
def paceMinutes (w : RateWindow) : Int :=
  w.window_minutes.getD DEFAULT_WINDOW_MINUTES

/-- `duration` in `UsagePace::weekly` (`src/pace.rs` line 36):
`f64::from(minutes) * 60.0` seconds. -/
def paceDuration (w : RateWindow) : ℚ :=
  (paceMinutes w : ℚ) * 60

/-- `time_until_reset` in `UsagePace::weekly` (`src/pace.rs` line 37):
`(resets_at - now).num_milliseconds() as f64 / 1000.0`, with both instants in
milliseconds. -/
def paceTUR (r now : Int) : ℚ :=
  ((r - now : Int) : ℚ) / 1000

/-- `elapsed` in `UsagePace::weekly` (`src/pace.rs` line 42):
`(duration - time_until_reset).clamp(0.0, duration)`. -/
def paceElapsed (w : RateWindow) (r now : Int) : ℚ :=
  clampQ (paceDuration w - paceTUR r now) 0 (paceDuration w)

/-- `expected` in `UsagePace::weekly` (`src/pace.rs` line 43):
`(elapsed / duration * 100.0).clamp(0.0, 100.0)`. -/
def paceExpected (w : RateWindow) (r now : Int) : ℚ :=
  clampQ (paceElapsed w r now / paceDuration w * 100) 0 100

/-- `actual` in `UsagePace::weekly` (`src/pace.rs` line 44):
`window.used_percent.clamp(0.0, 100.0)`. -/
def paceActual (w : RateWindow) : ℚ :=
  clampQ w.used_percent 0 100

/-- The burn-rate projection block of `UsagePace::weekly`
(`src/pace.rs` lines 53-69), returning `(eta_seconds, will_last_to_reset)`. -/
def paceEW (w : RateWindow) (r now : Int) : Option ℚ × Bool :=
  if 0 < paceElapsed w r now ∧ 0 < paceActual w then
    (let rate := paceActual w / paceElapsed w r now
     if 0 < rate then
       (let remaining := max (100 - paceActual w) 0
        let candidate := remaining / rate
        if paceTUR r now ≤ candidate then (none, true) else (some candidate, false))
     else (none, false))
  else if 0 < paceElapsed w r now then (none, true)
  else (none, false)

/-- `UsagePace::stage_for` from `src/pace.rs` lines 81-102. -/
def UsagePace.stage_for (delta : ℚ) : PaceStage :=
  if |delta| ≤ 2 then PaceStage.OnTrack
  else if |delta| ≤ 6 then
    (if 0 ≤ delta then PaceStage.SlightlyAhead else PaceStage.SlightlyBehind)
  else if |delta| ≤ 12 then
    (if 0 ≤ delta then PaceStage.Ahead else PaceStage.Behind)
  else if 0 ≤ delta then PaceStage.FarAhead
  else PaceStage.FarBehind

/-- The `UsagePace` value built at `src/pace.rs` lines 71-78 once every guard
of `UsagePace::weekly` has passed. -/
def mkWeeklyPace (w : RateWindow) (r now : Int) : UsagePace :=
  { stage := UsagePace.stage_for (paceActual w - paceExpected w r now)
  , delta_percent := paceActual w - paceExpected w r now
  , expected_used_percent := paceExpected w r now
  , actual_used_percent := paceActual w
  , eta_seconds := (paceEW w r now).1
  , will_last_to_reset := (paceEW w r now).2 }

/-- `UsagePace::weekly` from `src/pace.rs` lines 29-79. -/
def UsagePace.weekly (window : RateWindow) (now : Int) : Option UsagePace :=
  match window.resets_at with
  | none => none
  | some resets_at =>
    if paceMinutes window ≤ 0 then none
    else if paceTUR resets_at now ≤ 0 ∨ paceDuration window < paceTUR resets_at now then none
    else if paceElapsed window resets_at now = 0 ∧ 0 < paceActual window then none
    else some (mkWeeklyPace window resets_at now)

/-- `compute_pace` from `src/pace.rs` lines 105-121. -/
def compute_pace (provider : Provider) (window : RateWindow) (now : Int) :
    Option UsagePace :=
  if ¬(provider = Provider.Claude ∨ provider = Provider.Codex) then none
  else if window.remaining_percent ≤ 0 then none
  else
    match UsagePace.weekly window now with
    | none => none
    | some pace =>
      if pace.expected_used_percent < MINIMUM_EXPECTED_PERCENT then none
      else some pace

/-- `format_duration` from `src/pace.rs` lines 148-168.  All integer divisions
operate on positive values, where Rust's truncating division agrees with
Lean's. -/
def format_duration (seconds : ℚ) : String :=
  if seconds < 1 then "now"
  else
    let total_minutes : Int := max ⌈seconds / 60⌉ 1
    let days := total_minutes / (24 * 60)
    let hours := (total_minutes / 60) % 24
    let minutes := total_minutes % 60
    if 0 < days ∧ 0 < hours then toString days ++ "d " ++ toString hours ++ "h"
    else if 0 < days then toString days ++ "d"
    else if 0 < hours ∧ 0 < minutes then toString hours ++ "h " ++ toString minutes ++ "m"
    else if 0 < hours then toString hours ++ "h"
    else toString minutes ++ "m"

/-- `format_pace_right` from `src/pace.rs` lines 135-146. -/
def format_pace_right (pace : UsagePace) : Option String :=
  if pace.will_last_to_reset then some "Lasts until reset"
  else
    match pace.eta_seconds with
    | none => none
    | some eta =>
      let text := format_duration eta
      if text = "now" then some "Runs out now"
      else some ("Runs out in " ++ text)

/-! ## Basic bounds for the clamped pace quantities -/

lemma clampQ_le_right (x lo hi : ℚ) : clampQ x lo hi ≤ hi :=
  min_le_right _ _

lemma paceActual_nonneg (w : RateWindow) : 0 ≤ paceActual w :=
  le_min (le_max_right _ _) (by norm_num)

lemma paceActual_le_100 (w : RateWindow) : paceActual w ≤ 100 :=
  min_le_right _ _

lemma paceDuration_pos {w : RateWindow} (h : 0 < paceMinutes w) :
    0 < paceDuration w := by
  have : (0 : ℚ) < (paceMinutes w : ℚ) := by exact_mod_cast h
  unfold paceDuration
  nlinarith

lemma paceElapsed_nonneg {w : RateWindow} {r now : Int} (h : 0 < paceMinutes w) :
    0 ≤ paceElapsed w r now :=
  le_min (le_max_right _ _) (le_of_lt (paceDuration_pos h))

lemma paceElapsed_le_duration (w : RateWindow) (r now : Int) :
    paceElapsed w r now ≤ paceDuration w :=
  min_le_right _ _

/-- When the window length is positive, the clamp inside `expected` is the
identity: the raw ratio `elapsed / duration * 100` already lies in `[0,100]`. -/
lemma paceExpected_eq_raw {w : RateWindow} (r now : Int) (h : 0 < paceMinutes w) :
    paceExpected w r now = paceElapsed w r now / paceDuration w * 100 := by
  have hd := paceDuration_pos h
  have h0 : 0 ≤ paceElapsed w r now := paceElapsed_nonneg h
  have h1 : paceElapsed w r now ≤ paceDuration w := paceElapsed_le_duration w r now
  have hraw0 : 0 ≤ paceElapsed w r now / paceDuration w * 100 := by positivity
  have hdiv : paceElapsed w r now / paceDuration w ≤ 1 := (div_le_one hd).mpr h1
  have hraw100 : paceElapsed w r now / paceDuration w * 100 ≤ 100 := by nlinarith
  unfold paceExpected clampQ
  rw [max_eq_left hraw0, min_eq_left hraw100]

lemma paceExpected_nonneg (w : RateWindow) (r now : Int) :
    0 ≤ paceExpected w r now :=
  le_min (le_max_right _ _) (by norm_num)

lemma paceExpected_le_100 (w : RateWindow) (r now : Int) :
    paceExpected w r now ≤ 100 :=
  min_le_right _ _

/-! ## Characterization of `UsagePace::weekly` -/

/-- `UsagePace::weekly` yields a result exactly when every guard of
`src/pace.rs` lines 30-48 passes, and the result is then the record built at
lines 71-78. -/
lemma weekly_eq_some_iff (w : RateWindow) (now : Int) (p : UsagePace) :
    UsagePace.weekly w now = some p ↔
      ∃ r, w.resets_at = some r ∧ 0 < paceMinutes w ∧ 0 < paceTUR r now ∧
        paceTUR r now ≤ paceDuration w ∧
        ¬(paceElapsed w r now = 0 ∧ 0 < paceActual w) ∧
        p = mkWeeklyPace w r now := by
  cases hr : w.resets_at with
  | none => simp [UsagePace.weekly, hr]
  | some r =>
    simp only [UsagePace.weekly, hr]
    constructor
    · intro h
      split_ifs at h with h1 h2 h3
      push_neg at h2
      refine ⟨r, rfl, by omega, h2.1, h2.2, h3, (Option.some.inj h).symm⟩
    · rintro ⟨r', hr', hm, ht1, ht2, hg, hp⟩
      have hrr : r = r' := Option.some.inj hr'
      subst hrr
      subst hp
      rw [if_neg (by omega), if_neg (by push_neg; exact ⟨ht1, ht2⟩), if_neg hg]

/-- `UsagePace::weekly` yields nothing exactly when one of its guards fires. -/
lemma weekly_eq_none_iff (w : RateWindow) (now : Int) :
    UsagePace.weekly w now = none ↔
      (w.resets_at = none ∨ paceMinutes w ≤ 0 ∨
        (∃ r, w.resets_at = some r ∧
          (paceTUR r now ≤ 0 ∨ paceDuration w < paceTUR r now)) ∨
        (∃ r, w.resets_at = some r ∧ paceElapsed w r now = 0 ∧ 0 < paceActual w)) := by
  cases hr : w.resets_at with
  | none => simp [UsagePace.weekly, hr]
  | some r =>
    simp only [UsagePace.weekly, hr]
    constructor
    · intro h
      split_ifs at h with h1 h2 h3
      · exact Or.inr (Or.inl h1)
      · exact Or.inr (Or.inr (Or.inl ⟨r, rfl, h2⟩))
      · exact Or.inr (Or.inr (Or.inr ⟨r, rfl, h3⟩))
    · rintro (h | h | ⟨r', hr', h⟩ | ⟨r', hr', h⟩)
      · exact absurd h (by simp)
      · rw [if_pos h]
      · have hrr : r = r' := Option.some.inj hr'
        subst hrr
        by_cases h1 : paceMinutes w ≤ 0
        · rw [if_pos h1]
        · rw [if_neg h1, if_pos h]
      · have hrr : r = r' := Option.some.inj hr'
        subst hrr
        by_cases h1 : paceMinutes w ≤ 0
        · rw [if_pos h1]
        · rw [if_neg h1]
          by_cases h2 : paceTUR r now ≤ 0 ∨ paceDuration w < paceTUR r now
          · rw [if_pos h2]
          · rw [if_neg h2, if_pos h]

/-! ## Helper lemmas about `compute_pace` -/

lemma compute_pace_none_of_weekly_none {w : RateWindow} {now : Int}
    (prov : Provider) (h : UsagePace.weekly w now = none) :
    compute_pace prov w now = none := by
  simp only [compute_pace, h]
  split_ifs <;> rfl

lemma compute_pace_of_weekly_some {w : RateWindow} {now : Int} {p : UsagePace}
    (prov : Provider) (h : UsagePace.weekly w now = some p) :
    compute_pace prov w now =
      (if ¬(prov = Provider.Claude ∨ prov = Provider.Codex) then none
       else if w.remaining_percent ≤ 0 then none
       else if p.expected_used_percent < MINIMUM_EXPECTED_PERCENT then none
       else some p) := by
  simp only [compute_pace, h]

/-! ## Claims about the pace engine -/

/-- C1: `compute_pace provider window now` returns `none` exactly when at least
one of these holds, and `some pace` otherwise: the provider is outside the
allow-list `{Claude, Codex}`; `remaining_percent() ≤ 0`; `resets_at` is absent;
the window length in minutes (defaulting to 10080) is `≤ 0`; the time until
reset is `≤ 0` or exceeds the window duration in seconds; `elapsed = 0` while
the clamped `used_percent` is positive; or the expected-used percentage
`elapsed / duration * 100` is below the 3% minimum-expected threshold. -/
theorem C1_compute_pace_none_iff (provider : Provider) (window : RateWindow) (now : Int) :
    compute_pace provider window now = none ↔
      (¬(provider = Provider.Claude ∨ provider = Provider.Codex)
        ∨ window.remaining_percent ≤ 0
        ∨ window.resets_at = none
        ∨ paceMinutes window ≤ 0
        ∨ (∃ r, window.resets_at = some r ∧
            (paceTUR r now ≤ 0 ∨ paceDuration window < paceTUR r now))
        ∨ (∃ r, window.resets_at = some r ∧
            paceElapsed window r now = 0 ∧ 0 < paceActual window)
        ∨ (∃ r, window.resets_at = some r ∧
            paceElapsed window r now / paceDuration window * 100
              < MINIMUM_EXPECTED_PERCENT)) := by
  constructor
  · intro h
    by_cases hel : provider = Provider.Claude ∨ provider = Provider.Codex
    case neg => exact Or.inl hel
    by_cases hrem : window.remaining_percent ≤ 0
    case pos => exact Or.inr (Or.inl hrem)
    cases hww : UsagePace.weekly window now with
    | none =>
      rcases (weekly_eq_none_iff window now).mp hww with h3 | h4 | h5 | h6
      · exact Or.inr (Or.inr (Or.inl h3))
      · exact Or.inr (Or.inr (Or.inr (Or.inl h4)))
      · exact Or.inr (Or.inr (Or.inr (Or.inr (Or.inl h5))))
      · exact Or.inr (Or.inr (Or.inr (Or.inr (Or.inr (Or.inl h6)))))
    | some p =>
      rw [compute_pace_of_weekly_some provider hww, if_neg (not_not_intro hel),
        if_neg hrem] at h
      have hexp : p.expected_used_percent < MINIMUM_EXPECTED_PERCENT := by
        by_contra hge
        rw [if_neg hge] at h
        exact absurd h (by simp)
      rcases (weekly_eq_some_iff window now p).mp hww with ⟨r, hr, hm, _, _, _, hp⟩
      refine Or.inr (Or.inr (Or.inr (Or.inr (Or.inr (Or.inr ⟨r, hr, ?_⟩)))))
      have hpe : p.expected_used_percent = paceExpected window r now := by rw [hp]; rfl
      rw [hpe, paceExpected_eq_raw r now hm] at hexp
      exact hexp
  · rintro (h | h | h | h | h | h | ⟨r, hr, hraw⟩)
    · simp [compute_pace, h]
    · by_cases hel : provider = Provider.Claude ∨ provider = Provider.Codex
      · simp only [compute_pace]
        rw [if_neg (not_not_intro hel), if_pos h]
      · simp [compute_pace, hel]
    · exact compute_pace_none_of_weekly_none provider
        ((weekly_eq_none_iff window now).mpr (Or.inl h))
    · exact compute_pace_none_of_weekly_none provider
        ((weekly_eq_none_iff window now).mpr (Or.inr (Or.inl h)))
    · exact compute_pace_none_of_weekly_none provider
        ((weekly_eq_none_iff window now).mpr (Or.inr (Or.inr (Or.inl h))))
    · exact compute_pace_none_of_weekly_none provider
        ((weekly_eq_none_iff window now).mpr (Or.inr (Or.inr (Or.inr h))))
    · cases hww : UsagePace.weekly window now with
      | none => exact compute_pace_none_of_weekly_none provider hww
      | some p =>
        rcases (weekly_eq_some_iff window now p).mp hww with ⟨r', hr', hm, _, _, _, hp⟩
        have hrr : r' = r := by rw [hr] at hr'; exact (Option.some.inj hr').symm
        subst hrr
        have hexp : p.expected_used_percent < MINIMUM_EXPECTED_PERCENT := by
          have hpe : p.expected_used_percent = paceExpected window r' now := by rw [hp]; rfl
          rw [hpe, paceExpected_eq_raw r' now hm]
          exact hraw
        rw [compute_pace_of_weekly_some provider hww]
        split_ifs <;> rfl

/-- C3: the seven pace stages are classified by `|delta|` against the
thresholds `{2, 6, 12}` and the sign of `delta`, as in
`UsagePace::stage_for` (`src/pace.rs` lines 81-102). -/
theorem C3_stage_thresholds (delta : ℚ) :
    (|delta| ≤ 2 → UsagePace.stage_for delta = PaceStage.OnTrack)
  ∧ (2 < |delta| → |delta| ≤ 6 → 0 ≤ delta →
      UsagePace.stage_for delta = PaceStage.SlightlyAhead)
  ∧ (2 < |delta| → |delta| ≤ 6 → delta < 0 →
      UsagePace.stage_for delta = PaceStage.SlightlyBehind)
  ∧ (6 < |delta| → |delta| ≤ 12 → 0 ≤ delta →
      UsagePace.stage_for delta = PaceStage.Ahead)
  ∧ (6 < |delta| → |delta| ≤ 12 → delta < 0 →
      UsagePace.stage_for delta = PaceStage.Behind)
  ∧ (12 < |delta| → 0 ≤ delta → UsagePace.stage_for delta = PaceStage.FarAhead)
  ∧ (12 < |delta| → delta < 0 → UsagePace.stage_for delta = PaceStage.FarBehind) := by
  unfold UsagePace.stage_for
  refine ⟨?_, ?_, ?_, ?_, ?_, ?_, ?_⟩ <;> intros <;> split_ifs <;>
    first | rfl | linarith

/-- A window whose source data reports `used_percent` above 100. -/
def overWindow : RateWindow :=
  { used_percent := 150, window_minutes := none, resets_at := none
  , reset_description := none }

/-- C7, counterexample: for `used_percent = 150`, `remaining_percent()` is
`-50`: it is negative, differing from the clamped value `0` the claim
requires. -/
theorem C7_counterexample :
    overWindow.remaining_percent = -50 ∧ overWindow.remaining_percent < 0 ∧
      clampQ (100 - overWindow.used_percent) 0 100 = 0 ∧
      overWindow.remaining_percent ≠ clampQ (100 - overWindow.used_percent) 0 100 := by
  refine ⟨?_, ?_, ?_, ?_⟩ <;>
    norm_num [overWindow, RateWindow.remaining_percent, clampQ]

/-- C7, amended: `remaining_percent()` equals `100 - used_percent` with no
clamping; in particular it is negative whenever `used_percent > 100` and
exceeds 100 whenever `used_percent < 0`. -/
theorem C7_remaining_unclamped (w : RateWindow) :
    w.remaining_percent = 100 - w.used_percent ∧
      (100 < w.used_percent → w.remaining_percent < 0) ∧
      (w.used_percent < 0 → 100 < w.remaining_percent) := by
  unfold RateWindow.remaining_percent
  refine ⟨rfl, ?_, ?_⟩ <;> intro h <;> linarith

/-! ## Branch lemmas for the burn-rate projection -/

lemma paceEW_will_last {w : RateWindow} {r now : Int}
    (hE : 0 < paceElapsed w r now) (hA : 0 < paceActual w)
    (hc : paceTUR r now ≤
      (100 - paceActual w) / (paceActual w / paceElapsed w r now)) :
    paceEW w r now = (none, true) := by
  have hrate : 0 < paceActual w / paceElapsed w r now := div_pos hA hE
  have hmax : max (100 - paceActual w) 0 = 100 - paceActual w :=
    max_eq_left (sub_nonneg.mpr (paceActual_le_100 w))
  simp only [paceEW, hmax]
  rw [if_pos ⟨hE, hA⟩, if_pos hrate, if_pos hc]

lemma paceEW_eta {w : RateWindow} {r now : Int}
    (hE : 0 < paceElapsed w r now) (hA : 0 < paceActual w)
    (hc : (100 - paceActual w) / (paceActual w / paceElapsed w r now)
      < paceTUR r now) :
    paceEW w r now =
      (some ((100 - paceActual w) / (paceActual w / paceElapsed w r now)), false) := by
  have hrate : 0 < paceActual w / paceElapsed w r now := div_pos hA hE
  have hmax : max (100 - paceActual w) 0 = 100 - paceActual w :=
    max_eq_left (sub_nonneg.mpr (paceActual_le_100 w))
  simp only [paceEW, hmax]
  rw [if_pos ⟨hE, hA⟩, if_pos hrate, if_neg (not_le.mpr hc)]

lemma paceEW_zero_usage {w : RateWindow} {r now : Int}
    (hE : 0 < paceElapsed w r now) (hA : paceActual w = 0) :
    paceEW w r now = (none, true) := by
  simp only [paceEW]
  rw [if_neg (by rw [hA]; simp), if_pos hE]

lemma paceEW_not_started {w : RateWindow} {r now : Int}
    (hE : paceElapsed w r now = 0) :
    paceEW w r now = (none, false) := by
  simp only [paceEW]
  rw [if_neg (by rw [hE]; simp), if_neg (by rw [hE]; simp)]

lemma compute_pace_some_iff (prov : Provider) (w : RateWindow) (now : Int) (p : UsagePace) :
    compute_pace prov w now = some p ↔
      ((prov = Provider.Claude ∨ prov = Provider.Codex) ∧
        ¬w.remaining_percent ≤ 0 ∧
        UsagePace.weekly w now = some p ∧
        MINIMUM_EXPECTED_PERCENT ≤ p.expected_used_percent) := by
  cases hww : UsagePace.weekly w now with
  | none =>
    rw [compute_pace_none_of_weekly_none prov hww]
    simp [hww]
  | some q =>
    rw [compute_pace_of_weekly_some prov hww]
    constructor
    · intro h
      split_ifs at h with h1 h2 h3
      have hqp : q = p := Option.some.inj h
      subst hqp
      exact ⟨h1, h2, rfl, not_lt.mp h3⟩
    · rintro ⟨h1, h2, h3, h4⟩
      have hqp : q = p := Option.some.inj h3
      subst hqp
      rw [if_neg (not_not_intro h1), if_neg h2, if_neg (not_lt.mpr h4)]

/-- C2: in every result of `UsagePace::weekly`, the burn-rate projection of
`src/pace.rs` lines 53-69 holds: with positive elapsed time and positive
clamped usage, the candidate ETA `(100 - actual) / (actual / elapsed)` either
reaches the reset (`will_last_to_reset`, no ETA) or is reported as
`eta_seconds`; with positive elapsed time and zero usage the window lasts to
reset; with zero elapsed time neither an ETA nor the flag is produced. -/
theorem C2_burn_rate_projection (window : RateWindow) (now r : Int) (pace : UsagePace)
    (hr : window.resets_at = some r)
    (h : UsagePace.weekly window now = some pace) :
    (0 < paceElapsed window r now → 0 < paceActual window →
      (paceTUR r now ≤
          (100 - paceActual window) / (paceActual window / paceElapsed window r now) →
        pace.will_last_to_reset = true ∧ pace.eta_seconds = none)
      ∧ ((100 - paceActual window) / (paceActual window / paceElapsed window r now)
            < paceTUR r now →
        pace.eta_seconds =
            some ((100 - paceActual window) /
              (paceActual window / paceElapsed window r now))
          ∧ pace.will_last_to_reset = false))
  ∧ (0 < paceElapsed window r now → paceActual window = 0 →
      pace.will_last_to_reset = true ∧ pace.eta_seconds = none)
  ∧ (paceElapsed window r now = 0 →
      pace.eta_seconds = none ∧ pace.will_last_to_reset = false) := by
  rcases (weekly_eq_some_iff window now pace).mp h with ⟨r', hr', hm, ht1, ht2, hg, hp⟩
  have hrr : r' = r := by rw [hr] at hr'; exact (Option.some.inj hr').symm
  subst hrr
  subst hp
  refine ⟨fun hE hA => ⟨fun hc => ?_, fun hc => ?_⟩, fun hE hA => ?_, fun hE => ?_⟩
  · have hEW := paceEW_will_last hE hA hc
    constructor
    · show (paceEW window r' now).2 = true
      rw [hEW]
    · show (paceEW window r' now).1 = none
      rw [hEW]
  · have hEW := paceEW_eta hE hA hc
    constructor
    · show (paceEW window r' now).1 = _
      rw [hEW]
    · show (paceEW window r' now).2 = false
      rw [hEW]
  · have hEW := paceEW_zero_usage hE hA
    constructor
    · show (paceEW window r' now).2 = true
      rw [hEW]
    · show (paceEW window r' now).1 = none
      rw [hEW]
  · have hEW := paceEW_not_started hE
    constructor
    · show (paceEW window r' now).1 = none
      rw [hEW]
    · show (paceEW window r' now).2 = false
      rw [hEW]

/-- A concrete window for exercising C2: 50% used halfway through a default
7-day window. -/
def wC2 : RateWindow :=
  { used_percent := 50, window_minutes := some 10080, resets_at := some 302400000
  , reset_description := none }

/-- C2, witness: at 50% usage halfway through the window the burn rate exactly
reaches the reset, so the lasts-flag is set and no ETA is reported. -/
theorem C2_burn_rate_projection_witness :
    (mkWeeklyPace wC2 302400000 0).will_last_to_reset = true ∧
      (mkWeeklyPace wC2 302400000 0).eta_seconds = none :=
  ((C2_burn_rate_projection wC2 0 302400000 (mkWeeklyPace wC2 302400000 0) rfl
      ((weekly_eq_some_iff wC2 0 _).mpr
        ⟨302400000, rfl, by norm_num [paceMinutes, wC2, DEFAULT_WINDOW_MINUTES],
          by norm_num [paceTUR, wC2],
          by norm_num [paceTUR, paceDuration, paceMinutes, wC2, DEFAULT_WINDOW_MINUTES],
          by norm_num [paceElapsed, paceTUR, paceDuration, paceMinutes, clampQ, wC2,
            DEFAULT_WINDOW_MINUTES], rfl⟩)).1
    (by norm_num [paceElapsed, paceTUR, paceDuration, paceMinutes, clampQ, wC2,
      DEFAULT_WINDOW_MINUTES])
    (by norm_num [paceActual, clampQ, wC2])).1
    (by norm_num [paceTUR, paceActual, paceElapsed, paceDuration, paceMinutes, clampQ,
      wC2, DEFAULT_WINDOW_MINUTES])

/-- C10: invariants of every `some` result of `compute_pace`: exactly one of
`eta_seconds` and `will_last_to_reset` is set; the expected percentage lies in
`[3, 100]`; the actual percentage lies in `[0, 100]`; `delta_percent` is their
difference; and any reported ETA is nonnegative and strictly below the time
remaining until reset. -/
theorem C10_compute_pace_invariants (provider : Provider) (window : RateWindow)
    (now : Int) (pace : UsagePace)
    (h : compute_pace provider window now = some pace) :
    (pace.eta_seconds.isSome = !pace.will_last_to_reset)
  ∧ MINIMUM_EXPECTED_PERCENT ≤ pace.expected_used_percent
  ∧ pace.expected_used_percent ≤ 100
  ∧ 0 ≤ pace.actual_used_percent
  ∧ pace.actual_used_percent ≤ 100
  ∧ pace.delta_percent = pace.actual_used_percent - pace.expected_used_percent
  ∧ (∀ r e, window.resets_at = some r → pace.eta_seconds = some e →
      0 ≤ e ∧ e < paceTUR r now) := by
  rcases (compute_pace_some_iff provider window now pace).mp h with ⟨_, _, hww, hexp⟩
  rcases (weekly_eq_some_iff window now pace).mp hww with ⟨r, hr, hm, ht1, ht2, hg, hp⟩
  have hppe : pace.expected_used_percent = paceExpected window r now := by rw [hp]; rfl
  have hE : 0 < paceElapsed window r now := by
    rcases lt_or_eq_of_le (paceElapsed_nonneg hm) with h0 | h0
    · exact h0
    · exfalso
      have hz : paceExpected window r now = 0 := by
        rw [paceExpected_eq_raw r now hm, ← h0]
        norm_num
      rw [hppe, hz] at hexp
      norm_num [MINIMUM_EXPECTED_PERCENT] at hexp
  subst hp
  have hbody : ((paceEW window r now).1.isSome = !(paceEW window r now).2)
      ∧ (∀ e, (paceEW window r now).1 = some e → 0 ≤ e ∧ e < paceTUR r now) := by
    rcases lt_or_eq_of_le (paceActual_nonneg window) with hA | hA
    · by_cases hc : paceTUR r now ≤
        (100 - paceActual window) / (paceActual window / paceElapsed window r now)
      · rw [paceEW_will_last hE hA hc]
        exact ⟨rfl, by intro e he; exact absurd he (by simp)⟩
      · rw [paceEW_eta hE hA (not_le.mp hc)]
        refine ⟨rfl, ?_⟩
        intro e he
        have he2 : (100 - paceActual window) /
            (paceActual window / paceElapsed window r now) = e :=
          Option.some.inj he
        rw [← he2]
        constructor
        · apply div_nonneg
          · linarith [paceActual_le_100 window]
          · exact le_of_lt (div_pos hA hE)
        · exact not_le.mp hc
    · rw [paceEW_zero_usage hE hA.symm]
      exact ⟨rfl, by intro e he; exact absurd he (by simp)⟩
  refine ⟨hbody.1, hexp, paceExpected_le_100 window r now, paceActual_nonneg window,
    paceActual_le_100 window, rfl, ?_⟩
  intro r' e hr' he
  have hrr : r = r' := by rw [hr] at hr'; exact Option.some.inj hr'
  subst hrr
  exact hbody.2 e he

/-- A concrete window for exercising C10: 99% used with 21 seconds left of a
2-minute window. -/
def wC10 : RateWindow :=
  { used_percent := 99, window_minutes := some 2, resets_at := some 21000
  , reset_description := none }

/-- C10, witness: for a concrete `some` result of `compute_pace`, the expected
percentage is at least the 3% threshold. -/
theorem C10_compute_pace_invariants_witness :
    MINIMUM_EXPECTED_PERCENT ≤ (mkWeeklyPace wC10 21000 0).expected_used_percent :=
  (C10_compute_pace_invariants Provider.Claude wC10 0 (mkWeeklyPace wC10 21000 0)
    ((compute_pace_some_iff _ _ _ _).mpr
      ⟨Or.inl rfl, by norm_num [RateWindow.remaining_percent, wC10],
        (weekly_eq_some_iff _ _ _).mpr
          ⟨21000, rfl, by norm_num [paceMinutes, wC10],
            by norm_num [paceTUR],
            by norm_num [paceTUR, paceDuration, paceMinutes, wC10],
            by norm_num [paceElapsed, paceTUR, paceDuration, paceMinutes, clampQ, wC10],
            rfl⟩,
        by
          show MINIMUM_EXPECTED_PERCENT ≤ (mkWeeklyPace wC10 21000 0).expected_used_percent
          norm_num [mkWeeklyPace, paceExpected, paceElapsed, paceTUR, paceDuration,
            paceMinutes, clampQ, wC10, MINIMUM_EXPECTED_PERCENT]⟩)).2.1

/-! ## The right label and duration formatting -/

lemma ne_now_of_data_getLast {s : String} {c : Char}
    (h : s.data.getLast? = some c) (hc : c ≠ 'w') : s ≠ "now" := by
  intro he
  subst he
  have hcw : some c = some 'w' := by rw [← h]; rfl
  exact hc (Option.some.inj hcw)

lemma append_last_char (a : String) (b : String) (c : Char) (hb : b.data = [c]) :
    (a ++ b).data.getLast? = some c := by
  rw [String.data_append, hb, List.getLast?_append]
  rfl

/-- `format_duration` collapses to `"now"` exactly for inputs below one
second (`src/pace.rs` lines 149-151): every other branch of the function ends
in a unit letter. -/
lemma format_duration_eq_now_iff (e : ℚ) : format_duration e = "now" ↔ e < 1 := by
  constructor
  · intro h
    by_contra hge
    push_neg at hge
    rw [format_duration, if_neg (not_lt.mpr hge)] at h
    dsimp only at h
    split_ifs at h
    · exact ne_now_of_data_getLast (append_last_char _ "h" 'h' rfl) (by decide) h
    · exact ne_now_of_data_getLast (append_last_char _ "d" 'd' rfl) (by decide) h
    · exact ne_now_of_data_getLast (append_last_char _ "m" 'm' rfl) (by decide) h
    · exact ne_now_of_data_getLast (append_last_char _ "h" 'h' rfl) (by decide) h
    · exact ne_now_of_data_getLast (append_last_char _ "m" 'm' rfl) (by decide) h
  · intro h
    rw [format_duration, if_pos h]

lemma format_duration_one : format_duration 1 = "1m" := by
  rw [format_duration, if_neg (by norm_num)]
  dsimp only
  rw [show ⌈(1:ℚ)/60⌉ = 1 from by rw [Int.ceil_eq_iff]; norm_num]
  decide

/-- A concrete window for refuting C9: 99% used with 21 seconds left of a
2-minute window, giving a one-second burn-out ETA. -/
def wC9 : RateWindow :=
  { used_percent := 99, window_minutes := some 2, resets_at := some 21000
  , reset_description := none }

/-- C9, counterexample: a pace produced by `compute_pace` whose ETA is one
second — far below one minute — yet whose right label is
`"Runs out in 1m"`, not `"Runs out now"`: the label collapses to
`"Runs out now"` only below one second, not below one minute. -/
theorem C9_counterexample :
    compute_pace Provider.Claude wC9 0 = some (mkWeeklyPace wC9 21000 0) ∧
    (mkWeeklyPace wC9 21000 0).will_last_to_reset = false ∧
    (mkWeeklyPace wC9 21000 0).eta_seconds = some 1 ∧
    (1 : ℚ) < 60 ∧
    format_pace_right (mkWeeklyPace wC9 21000 0) = some "Runs out in 1m" ∧
    format_pace_right (mkWeeklyPace wC9 21000 0) ≠ some "Runs out now" := by
  have hEW : paceEW wC9 21000 0 = (some 1, false) := by
    rw [paceEW_eta
      (by norm_num [paceElapsed, paceTUR, paceDuration, paceMinutes, clampQ, wC9])
      (by norm_num [paceActual, clampQ, wC9])
      (by norm_num [paceActual, paceElapsed, paceTUR, paceDuration, paceMinutes,
        clampQ, wC9])]
    norm_num [paceActual, paceElapsed, paceTUR, paceDuration, paceMinutes, clampQ, wC9]
  have hW : (mkWeeklyPace wC9 21000 0).will_last_to_reset = false := by
    show (paceEW wC9 21000 0).2 = false
    rw [hEW]
  have hEta : (mkWeeklyPace wC9 21000 0).eta_seconds = some 1 := by
    show (paceEW wC9 21000 0).1 = some 1
    rw [hEW]
  have hfpr : format_pace_right (mkWeeklyPace wC9 21000 0) = some "Runs out in 1m" := by
    rw [format_pace_right, if_neg (by rw [hW]; exact Bool.false_ne_true), hEta]
    dsimp only
    rw [format_duration_one, if_neg (by decide)]
    decide
  refine ⟨?_, hW, hEta, by norm_num, hfpr, by rw [hfpr]; decide⟩
  apply (compute_pace_some_iff _ _ _ _).mpr
  refine ⟨Or.inl rfl, by norm_num [RateWindow.remaining_percent, wC9], ?_, ?_⟩
  · apply (weekly_eq_some_iff _ _ _).mpr
    exact ⟨21000, rfl, by norm_num [paceMinutes, wC9],
      by norm_num [paceTUR],
      by norm_num [paceTUR, paceDuration, paceMinutes, wC9],
      by norm_num [paceElapsed, paceTUR, paceDuration, paceMinutes, clampQ, wC9],
      rfl⟩
  · show MINIMUM_EXPECTED_PERCENT ≤ (mkWeeklyPace wC9 21000 0).expected_used_percent
    norm_num [mkWeeklyPace, paceExpected, paceElapsed, paceTUR, paceDuration,
      paceMinutes, clampQ, wC9, MINIMUM_EXPECTED_PERCENT]

/-- C9, amended: the right label is `"Lasts until reset"` when the lasts-flag
is set; otherwise, given an ETA, it is `"Runs out now"` exactly when the
formatted duration collapses to `"now"` — which happens exactly when the ETA
is below one second — and `"Runs out in <duration>"` otherwise; absent an ETA,
no right label is produced. -/
theorem C9_right_label (pace : UsagePace) :
    (pace.will_last_to_reset = true → format_pace_right pace = some "Lasts until reset")
  ∧ (pace.will_last_to_reset = false → pace.eta_seconds = none →
      format_pace_right pace = none)
  ∧ (∀ e, pace.will_last_to_reset = false → pace.eta_seconds = some e →
      ((e < 1 → format_pace_right pace = some "Runs out now")
        ∧ (1 ≤ e →
            format_pace_right pace = some ("Runs out in " ++ format_duration e)
              ∧ format_duration e ≠ "now")))
  ∧ (∀ e, format_duration e = "now" ↔ e < 1) := by
  refine ⟨fun h => ?_, fun h hn => ?_, fun e h hs => ⟨fun hlt => ?_, fun hge => ?_⟩,
    format_duration_eq_now_iff⟩
  · rw [format_pace_right, if_pos h]
  · rw [format_pace_right, if_neg (by rw [h]; exact Bool.false_ne_true), hn]
  · rw [format_pace_right, if_neg (by rw [h]; exact Bool.false_ne_true), hs]
    dsimp only
    rw [if_pos ((format_duration_eq_now_iff e).mpr hlt)]
  · have hne : format_duration e ≠ "now" := fun hc =>
      absurd ((format_duration_eq_now_iff e).mp hc) (not_lt.mpr hge)
    refine ⟨?_, hne⟩
    rw [format_pace_right, if_neg (by rw [h]; exact Bool.false_ne_true), hs]
    dsimp only
    rw [if_neg hne]

/-! ## Snapshot aggregate types and the presentation aggregator's class -/

/-- `CostSnapshot` from `src/models.rs` lines 61-73. -/
structure CostSnapshot where
  used : ℚ
  limit : ℚ
  currency_code : String
  period : Option String
  resets_at : Option Int
deriving DecidableEq, Repr

/-- `IdentitySnapshot` from `src/models.rs` lines 86-94. -/
structure IdentitySnapshot where
  email : Option String
  plan : Option String
  organization : Option String
deriving DecidableEq, Repr

/-- `UsageSnapshot` from `src/models.rs` lines 97-112. -/
structure UsageSnapshot where
  provider : Provider
  primary : Option RateWindow
  secondary : Option RateWindow
  tertiary : Option RateWindow
  cost : Option CostSnapshot
  identity : Option IdentitySnapshot
  updated_at : Int
deriving DecidableEq, Repr

/-- The severity-class computation of `build_waybar_output`
(`src/main.rs` lines 202-203 and 230-241): fold `f64::max` over the present
`primary`/`secondary` percentages starting from `0.0`, then apply the 90/75
thresholds. -/
def build_waybar_class (snapshot : UsageSnapshot) : List String :=
  let session := snapshot.primary.map RateWindow.used_percent
  let week := snapshot.secondary.map RateWindow.used_percent
  let max_used := ([session, week].filterMap id).foldl max 0
  if 90 ≤ max_used then ["critical"]
  else if 75 ≤ max_used then ["warning"]
  else []

/-- The claim's reading of the aggregator severity: the maximum `used_percent`
across the `primary` and `secondary` windows, when at least one is present. -/
def pair_max_used (s : UsageSnapshot) : Option ℚ :=
  match s.primary, s.secondary with
  | none, none => none
  | some a, none => some a.used_percent
  | none, some b => some b.used_percent
  | some a, some b => some (max a.used_percent b.used_percent)

lemma class_of_max (m : ℚ) :
    (if 90 ≤ max 0 m then ["critical"]
     else if 75 ≤ max 0 m then ["warning"] else ([] : List String))
      = (if 90 ≤ m then ["critical"] else if 75 ≤ m then ["warning"] else []) := by
  rcases le_or_lt m 0 with h | h
  · rw [max_eq_left h]
    rw [if_neg (by norm_num), if_neg (by norm_num), if_neg (by linarith),
      if_neg (by linarith)]
  · rw [max_eq_right (le_of_lt h)]

/-- C8: the 90/75 threshold pair is applied identically in
`RateWindow::status_class` and in the presentation aggregator's severity
class, which is computed from the maximum `used_percent` across `primary` and
`secondary` only — `tertiary` never contributes. -/
theorem C8_severity_thresholds (w : RateWindow) (s : UsageSnapshot)
    (t : Option RateWindow) :
    (w.status_class = "critical" ↔ 90 ≤ w.used_percent)
  ∧ (w.status_class = "warning" ↔ (75 ≤ w.used_percent ∧ w.used_percent < 90))
  ∧ (w.status_class = "normal" ↔ w.used_percent < 75)
  ∧ build_waybar_class { s with tertiary := t } = build_waybar_class s
  ∧ (pair_max_used s = none → build_waybar_class s = [])
  ∧ (∀ m, pair_max_used s = some m →
      build_waybar_class s =
        (if 90 ≤ m then ["critical"] else if 75 ≤ m then ["warning"] else [])) := by
  refine ⟨?_, ?_, ?_, rfl, ?_, ?_⟩
  · unfold RateWindow.status_class
    split_ifs with h1 h2 <;> simp [h1]
  · unfold RateWindow.status_class
    split_ifs with h1 h2 <;> simp_all <;> linarith
  · unfold RateWindow.status_class
    split_ifs with h1 h2 <;> simp_all <;> linarith
  · intro hm
    rcases hp : s.primary with _ | a <;> rcases hs : s.secondary with _ | b <;>
      simp_all [pair_max_used, build_waybar_class] <;> norm_num
  · intro m hm
    rcases hp : s.primary with _ | a <;> rcases hs : s.secondary with _ | b <;>
      rw [pair_max_used] at hm <;> simp only [hp, hs] at hm
    · exact absurd hm (by simp)
    · have hmb : b.used_percent = m := Option.some.inj hm
      subst hmb
      simp only [build_waybar_class, hp, hs]
      simpa using class_of_max b.used_percent
    · have hma : a.used_percent = m := Option.some.inj hm
      subst hma
      simp only [build_waybar_class, hp, hs]
      simpa using class_of_max a.used_percent
    · have hmab : max a.used_percent b.used_percent = m := Option.some.inj hm
      subst hmab
      simp only [build_waybar_class, hp, hs]
      have hassoc : max (max 0 a.used_percent) b.used_percent
          = max 0 (max a.used_percent b.used_percent) := max_assoc 0 _ _
      simpa [hassoc] using class_of_max (max a.used_percent b.used_percent)

/-! ## The cache store

`serde_json` serialization is modelled at the document level: a `Json` tree,
with numbers as exact rationals, and encoders/decoders that follow the derived
serde implementations field by field (`Option` fields as `null` or the value;
the snapshot map as an object keyed by the lowercase provider token; decoding
reads back the canonical field layout that serialization produces).  The file
system visible to `CacheState::load`/`save` (`src/cache.rs` lines 22-46) is a
pair of files: the target `state.json` and the temporary sibling
`state.tmp`. -/

inductive Json where
  | null
  | bool (b : Bool)
  | num (q : ℚ)
  | str (s : String)
  | arr (elems : List Json)
  | obj (fields : List (String × Json))

def Json.isNull : Json → Bool
  | .null => true
  | _ => false

def encodeOpt {α : Type} (f : α → Json) : Option α → Json
  | none => Json.null
  | some a => f a

def decodeOpt {α : Type} (f : Json → Option α) (j : Json) : Option (Option α) :=
  if j.isNull then some none else (f j).map some

def decodeNum : Json → Option ℚ
  | .num q => some q
  | _ => none

def decodeInt : Json → Option Int
  | .num q => if q.den = 1 then some q.num else none
  | _ => none

def decodeStr : Json → Option String
  | .str s => some s
  | _ => none

/-- The stable lowercase token each `Provider` serializes to
(`#[serde(rename_all = "lowercase")]`, `src/models.rs` line 6). -/
def providerKey : Provider → String
  | .Claude => "claude"
  | .Codex => "codex"
  | .OpenCode => "opencode"

def encodeProvider (p : Provider) : Json := Json.str (providerKey p)

def providerOfKey (s : String) : Option Provider :=
  if s = "claude" then some Provider.Claude
  else if s = "codex" then some Provider.Codex
  else if s = "opencode" then some Provider.OpenCode
  else none

def decodeProvider (j : Json) : Option Provider :=
  (decodeStr j).bind providerOfKey

def encodeRateWindow (w : RateWindow) : Json :=
  Json.obj
    [("used_percent", Json.num w.used_percent),
     ("window_minutes", encodeOpt (fun m => Json.num (m : ℚ)) w.window_minutes),
     ("resets_at", encodeOpt (fun t => Json.num (t : ℚ)) w.resets_at),
     ("reset_description", encodeOpt Json.str w.reset_description)]

def decodeRateWindow : Json → Option RateWindow
  | Json.obj [("used_percent", jup), ("window_minutes", jwm),
      ("resets_at", jra), ("reset_description", jrd)] => do
      let up ← decodeNum jup
      let wm ← decodeOpt decodeInt jwm
      let ra ← decodeOpt decodeInt jra
      let rd ← decodeOpt decodeStr jrd
      some { used_percent := up, window_minutes := wm, resets_at := ra
           , reset_description := rd }
  | _ => none

def encodeCostSnapshot (c : CostSnapshot) : Json :=
  Json.obj
    [("used", Json.num c.used),
     ("limit", Json.num c.limit),
     ("currency_code", Json.str c.currency_code),
     ("period", encodeOpt Json.str c.period),
     ("resets_at", encodeOpt (fun t => Json.num (t : ℚ)) c.resets_at)]

def decodeCostSnapshot : Json → Option CostSnapshot
  | Json.obj [("used", ju), ("limit", jl), ("currency_code", jc),
      ("period", jp), ("resets_at", jr)] => do
      let u ← decodeNum ju
      let l ← decodeNum jl
      let cc ← decodeStr jc
      let per ← decodeOpt decodeStr jp
      let ra ← decodeOpt decodeInt jr
      some { used := u, limit := l, currency_code := cc, period := per
           , resets_at := ra }
  | _ => none

def encodeIdentitySnapshot (i : IdentitySnapshot) : Json :=
  Json.obj
    [("email", encodeOpt Json.str i.email),
     ("plan", encodeOpt Json.str i.plan),
     ("organization", encodeOpt Json.str i.organization)]

def decodeIdentitySnapshot : Json → Option IdentitySnapshot
  | Json.obj [("email", je), ("plan", jp), ("organization", jo)] => do
      let e ← decodeOpt decodeStr je
      let p ← decodeOpt decodeStr jp
      let o ← decodeOpt decodeStr jo
      some { email := e, plan := p, organization := o }
  | _ => none

def encodeUsageSnapshot (s : UsageSnapshot) : Json :=
  Json.obj
    [("provider", encodeProvider s.provider),
     ("primary", encodeOpt encodeRateWindow s.primary),
     ("secondary", encodeOpt encodeRateWindow s.secondary),
     ("tertiary", encodeOpt encodeRateWindow s.tertiary),
     ("cost", encodeOpt encodeCostSnapshot s.cost),
     ("identity", encodeOpt encodeIdentitySnapshot s.identity),
     ("updated_at", Json.num (s.updated_at : ℚ))]

def decodeUsageSnapshot : Json → Option UsageSnapshot
  | Json.obj [("provider", jp), ("primary", j1), ("secondary", j2),
      ("tertiary", j3), ("cost", jc), ("identity", ji), ("updated_at", ju)] => do
      let p ← decodeProvider jp
      let pri ← decodeOpt decodeRateWindow j1
      let sec ← decodeOpt decodeRateWindow j2
      let ter ← decodeOpt decodeRateWindow j3
      let cost ← decodeOpt decodeCostSnapshot jc
      let ident ← decodeOpt decodeIdentitySnapshot ji
      let upd ← decodeInt ju
      some { provider := p, primary := pri, secondary := sec, tertiary := ter
           , cost := cost, identity := ident, updated_at := upd }
  | _ => none

lemma decodeOpt_encodeOpt {α : Type} (f : α → Json) (g : Json → Option α)
    (hg : ∀ a, g (f a) = some a) (hn : ∀ a, (f a).isNull = false) (o : Option α) :
    decodeOpt g (encodeOpt f o) = some o := by
  cases o with
  | none => rfl
  | some a => simp [encodeOpt, decodeOpt, hn a, hg a]

lemma decodeInt_num (t : Int) : decodeInt (Json.num (t : ℚ)) = some t := by
  simp [decodeInt, Rat.den_intCast, Rat.num_intCast]

lemma decodeProvider_encode (p : Provider) :
    decodeProvider (encodeProvider p) = some p := by cases p <;> rfl

lemma decodeRateWindow_encode (w : RateWindow) :
    decodeRateWindow (encodeRateWindow w) = some w := by
  obtain ⟨up, wm, ra, rd⟩ := w
  cases wm <;> cases ra <;> cases rd <;> rfl

lemma decodeCostSnapshot_encode (c : CostSnapshot) :
    decodeCostSnapshot (encodeCostSnapshot c) = some c := by
  obtain ⟨u, l, cc, per, ra⟩ := c
  cases per <;> cases ra <;> rfl

lemma decodeIdentitySnapshot_encode (i : IdentitySnapshot) :
    decodeIdentitySnapshot (encodeIdentitySnapshot i) = some i := by
  obtain ⟨e, p, o⟩ := i
  cases e <;> cases p <;> cases o <;> rfl

lemma decodeUsageSnapshot_encode (s : UsageSnapshot) :
    decodeUsageSnapshot (encodeUsageSnapshot s) = some s := by
  obtain ⟨p, pri, sec, ter, cost, ident, upd⟩ := s
  simp only [encodeUsageSnapshot, decodeUsageSnapshot, decodeProvider_encode,
    decodeOpt_encodeOpt encodeRateWindow decodeRateWindow decodeRateWindow_encode
      (fun _ => rfl),
    decodeOpt_encodeOpt encodeCostSnapshot decodeCostSnapshot decodeCostSnapshot_encode
      (fun _ => rfl),
    decodeOpt_encodeOpt encodeIdentitySnapshot decodeIdentitySnapshot
      decodeIdentitySnapshot_encode (fun _ => rfl),
    decodeInt_num, Option.bind]
  rfl

/-- `CacheState` from `src/cache.rs` lines 8-12; the `HashMap` is modelled as
an association list keyed by provider. -/
structure CacheState where
  snapshots : List (Provider × UsageSnapshot)
  updated_at : Int

def encodeSnapshotEntries (l : List (Provider × UsageSnapshot)) :
    List (String × Json) :=
  l.map (fun pr => (providerKey pr.1, encodeUsageSnapshot pr.2))

def decodeSnapshotEntries : List (String × Json) →
    Option (List (Provider × UsageSnapshot))
  | [] => some []
  | (k, v) :: rest => do
      let p ← providerOfKey k
      let s ← decodeUsageSnapshot v
      let tail ← decodeSnapshotEntries rest
      some ((p, s) :: tail)

def encodeCacheState (st : CacheState) : Json :=
  Json.obj
    [("snapshots", Json.obj (encodeSnapshotEntries st.snapshots)),
     ("updated_at", Json.num (st.updated_at : ℚ))]

def decodeCacheState : Json → Option CacheState
  | Json.obj [("snapshots", Json.obj entries), ("updated_at", ju)] => do
      let snaps ← decodeSnapshotEntries entries
      let upd ← decodeInt ju
      some { snapshots := snaps, updated_at := upd }
  | _ => none

lemma providerOfKey_providerKey (p : Provider) :
    providerOfKey (providerKey p) = some p := by cases p <;> rfl

lemma decodeSnapshotEntries_encode (l : List (Provider × UsageSnapshot)) :
    decodeSnapshotEntries (encodeSnapshotEntries l) = some l := by
  induction l with
  | nil => rfl
  | cons hd tl ih =>
    obtain ⟨p, s⟩ := hd
    simp only [encodeSnapshotEntries, List.map_cons, decodeSnapshotEntries,
      providerOfKey_providerKey, decodeUsageSnapshot_encode]
    rw [show decodeSnapshotEntries (List.map
        (fun pr => (providerKey pr.1, encodeUsageSnapshot pr.2)) tl)
      = some tl from ih]
    rfl

lemma decodeCacheState_encode (st : CacheState) :
    decodeCacheState (encodeCacheState st) = some st := by
  obtain ⟨snaps, upd⟩ := st
  simp only [encodeCacheState, decodeCacheState, decodeSnapshotEntries_encode,
    decodeInt_num]
  rfl

/-- The files `CacheState::load`/`save` touch: the target `state.json` and the
temporary sibling `state.tmp`; `none` is an absent file. -/
structure FS where
  target : Option Json
  temp : Option Json

/-- `CacheState::load` from `src/cache.rs` lines 22-31: absent file is
`Ok(None)`; a file that exists but fails to parse is an error. -/
def CacheState.load (fs : FS) : Except Unit (Option CacheState) :=
  match fs.target with
  | none => Except.ok none
  | some j =>
    match decodeCacheState j with
    | some st => Except.ok (some st)
    | none => Except.error ()

/-- The file system after `CacheState::save` (`src/cache.rs` lines 33-46) has
completed: the serialized state renamed over the target, the temp file gone. -/
def CacheState.save (fs : FS) (st : CacheState) : FS :=
  { target := some (encodeCacheState st), temp := none }

/-- The file-system states observable while `CacheState::save` runs: before
anything is written; with the temp file mid-write (holding arbitrary `junk`);
with the temp file completely written; and after the atomic rename. -/
def saveStates (fs0 : FS) (st : CacheState) (junk : Json) : List FS :=
  [fs0,
   { fs0 with temp := some junk },
   { fs0 with temp := some (encodeCacheState st) },
   CacheState.save fs0 st]

/-- C4: at every point during `CacheState::save` — including mid-write of the
temporary file — a concurrent `CacheState::load` sees either exactly what it
saw before the save or the new complete state; in particular, if the prior
target was readable (or absent), no intermediate state makes `load` fail with
a parse error. -/
theorem C4_atomic_save (fs0 : FS) (st : CacheState) (junk : Json) (fs : FS)
    (hfs : fs ∈ saveStates fs0 st junk) :
    (CacheState.load fs = CacheState.load fs0 ∨
      CacheState.load fs = Except.ok (some st)) ∧
    (CacheState.load fs0 ≠ Except.error () →
      CacheState.load fs ≠ Except.error ()) := by
  have hsaved : CacheState.load (CacheState.save fs0 st) = Except.ok (some st) := by
    simp [CacheState.load, CacheState.save, decodeCacheState_encode]
  simp only [saveStates, List.mem_cons, List.not_mem_nil, or_false] at hfs
  have hmain : CacheState.load fs = CacheState.load fs0 ∨
      CacheState.load fs = Except.ok (some st) := by
    rcases hfs with h | h | h | h <;> subst h
    · exact Or.inl rfl
    · exact Or.inl rfl
    · exact Or.inl rfl
    · exact Or.inr hsaved
  refine ⟨hmain, fun h0 => ?_⟩
  rcases hmain with h | h
  · rw [h]; exact h0
  · rw [h]; exact fun hc => Except.noConfusion hc

/-- An initially empty file system. -/
def fsEx : FS := { target := none, temp := none }

/-- A concrete cache state with one Claude snapshot. -/
def stEx : CacheState :=
  { snapshots := [(Provider.Claude,
      { provider := Provider.Claude, primary := none, secondary := none
      , tertiary := none, cost := none, identity := none, updated_at := 5 })]
  , updated_at := 7 }

/-- C4, witness: the final save step over an initially empty file system
yields the new complete state and never a parse error. -/
theorem C4_atomic_save_witness :
    (CacheState.load (CacheState.save fsEx stEx) = CacheState.load fsEx ∨
      CacheState.load (CacheState.save fsEx stEx) = Except.ok (some stEx)) ∧
    (CacheState.load fsEx ≠ Except.error () →
      CacheState.load (CacheState.save fsEx stEx) ≠ Except.error ()) :=
  C4_atomic_save fsEx stEx (Json.str "garbage") (CacheState.save fsEx stEx)
    (List.Mem.tail _ (List.Mem.tail _ (List.Mem.tail _ (List.Mem.head _))))

/-- C5: `save` followed by `load` yields a state whose snapshots map is
identical to the saved one and whose `updated_at` is no earlier than the value
passed to `save` (it is in fact equal). -/
theorem C5_save_load_roundtrip (fs0 : FS) (st : CacheState) :
    ∃ st', CacheState.load (CacheState.save fs0 st) = Except.ok (some st') ∧
      st'.snapshots = st.snapshots ∧ st.updated_at ≤ st'.updated_at :=
  ⟨st, by simp [CacheState.load, CacheState.save, decodeCacheState_encode], rfl,
    le_refl _⟩

/-- C6: `load` returns `Ok(None)` exactly when the cache file does not exist,
and an error exactly when the file exists but its contents fail to parse as a
`CacheState` document. -/
theorem C6_load_missing_or_corrupt (fs : FS) :
    (CacheState.load fs = Except.ok none ↔ fs.target = none)
  ∧ (CacheState.load fs = Except.error () ↔
      ∃ j, fs.target = some j ∧ decodeCacheState j = none) := by
  cases ht : fs.target with
  | none =>
    have hl : CacheState.load fs = Except.ok none := by simp [CacheState.load, ht]
    rw [hl]
    constructor
    · simp
    · constructor
      · intro hc; exact absurd hc (by simp)
      · rintro ⟨j', hj', _⟩; exact absurd hj' (by simp)
  | some j =>
    cases hd : decodeCacheState j with
    | none =>
      have hl : CacheState.load fs = Except.error () := by
        simp [CacheState.load, ht, hd]
      rw [hl]
      constructor
      · constructor
        · intro hc; exact absurd hc (by simp)
        · intro hc; exact absurd hc (by simp)
      · constructor
        · intro _; exact ⟨j, rfl, hd⟩
        · intro _; rfl
    | some stv =>
      have hl : CacheState.load fs = Except.ok (some stv) := by
        simp [CacheState.load, ht, hd]
      rw [hl]
      constructor
      · constructor
        · intro hc; exact absurd hc (by simp)
        · intro hc; exact absurd hc (by simp)
      · constructor
        · intro hc; exact absurd hc (by simp)
        · rintro ⟨j', hj', hdj'⟩
          have hjj : j = j' := Option.some.inj hj'
          subst hjj
          rw [hd] at hdj'
          exact absurd hdj' (by simp)
